import Mathlib

/-!
A shallow embedding of the Android WebKit URL-loader bridge
(`WebKit/android/WebCoreSupport/WebUrlLoaderClient.cpp` and
`WebKit/android/WebCoreSupport/WebResourceRequest.cpp`), together with
theorems about its lifecycle, dispatch and request-shaping behaviour.

Modelling conventions:
* The member variables of the C++ class `WebUrlLoaderClient` become the
  fields of the structure `ClientState`.  The reference-counted pointer
  `m_resourceHandle` is modelled as an `Option Bool`: `some c` means the
  reference is held and `c` records whether the handle still has an
  attached client (`m_resourceHandle->client()`); `none` means the
  reference has been released (`m_resourceHandle = 0`).
* Every C++ member function becomes a Lean function on `ClientState`.
  Functions that can terminate the process abnormally (an explicit
  `CRASH()`, a fatal `LOG_ASSERT`, or a null-pointer dereference) return
  an `Option`; `none` models abnormal termination.
* Calls into external collaborators are recorded rather than executed:
  tasks posted to the IO thread become `IoTask` values and calls into the
  owner (the `ResourceHandleClient` / `WebFrame`) become `OwnerCall`
  values, returned alongside the new state.
* The availability of the lazily started IO thread (`ioThread()` may
  return null) is an explicit boolean parameter `ioAvailable`.
* The single blocking point, the synchronous drain loop in `start()`, is
  modelled with explicit fuel and an explicit arrival schedule: the
  worker delivers one batch of queued callback tasks at every point where
  the loop blocks on the condition variable.
-/

/-- Model of `base::LowerCaseEqualsASCII(s, lit)`: ASCII-lowercase `s` and compare
with the (already lowercase) literal `lit`.  Character lists are used so
that the definition evaluates inside the kernel. -/
def lowerCaseEqualsASCII (s lit : String) : Bool :=
  s.data.map Char.toLower == lit.data

/-- Model of `url.compare(0, p.size(), p) == 0` for a prefix string `p`: the first
`p.size()` characters of `url` equal `p`. -/
def strStartsWith (s p : String) : Bool :=
  s.data.take p.data.length == p.data

/-- The prefix `"file:///android_asset/"` from the anonymous namespace of
WebUrlLoaderClient.cpp. -/
def androidAsset : String := "file:///android_asset/"

/-- The prefix `"file:///android_res/"` from the anonymous namespace of
WebUrlLoaderClient.cpp. -/
def androidResource : String := "file:///android_res/"

/-- The prefix `"content:"` from the anonymous namespace of
WebUrlLoaderClient.cpp. -/
def androidContent : String := "content:"

/-- Model of `isAndroidUrl` (WebUrlLoaderClient.cpp, anonymous namespace): the URL
matches one of the three fixed special-scheme prefixes. -/
def isAndroidUrl (url : String) : Bool :=
  if strStartsWith url androidAsset then true
  else if strStartsWith url androidResource then true
  else if strStartsWith url androidContent then true
  else false

/-- Response metadata handed back by the network layer.  The class
`WebResponse` itself is not under src/; only the accessors the bridge
uses are modelled: the URL it was created from (`createKurl`), the header
map (`getHeader`), the mime type and the expected size. -/
structure WebResponse where
  url : String
  headers : List (String × String)
  mimeType : String
  expectedSize : Nat
deriving Repr, DecidableEq

/-- Modelled from the spec: `WebResponse::getHeader` is not under src/;
per the spec the download operation forwards "the response's
content-disposition header value", so the lookup returns the value of
the first header with the given name, or the empty string. -/
def WebResponse.getHeader (r : WebResponse) (name : String) : String :=
  (((r.headers.find? (fun p => p.fst == name)).map Prod.snd)).getD ""

/-- Modelled from the spec: `WebRequest` (the executor that performs the
network operation) is not under src/.  Only what the bridge reads is
modelled: `getUrl`, `getUserAgent`, and whether the request was bound to
a local data stream instead of the network at construction. -/
structure WebRequest where
  url : String
  userAgent : String
  inputStream : Option Int
deriving Repr, DecidableEq

/-- A task posted to the IO thread (a `NewRunnableMethod` on the
`WebRequest`). -/
inductive IoTask where
  | start (isPrivateBrowsing : Bool)
  | cancel
  | setAuth (username password : String)
  | cancelAuth
  | appendBytes (data : List Nat)
  | appendFile (filename : String)
  | followDeferredRedirect
deriving Repr, DecidableEq

/-- A call delivered to the owner: either a `ResourceHandleClient`
callback or a `WebFrame` notification. -/
inductive OwnerCall where
  | didReceiveResponse (response : WebResponse)
  | didReceiveData (data : List Nat) (size : Nat)
  | willSendRequest (url : String) (response : WebResponse)
  | didFail (error : WebResponse)
  | didFinishLoading
  | didReceiveAuthenticationChallenge (host realm : String) (useCachedCredentials : Bool)
  | downloadStart (url userAgent contentDisposition mimeType : String) (expectedSize : Nat)
deriving Repr, DecidableEq

/-- An operation on the bridge.  The first eight are the callback entry
points invoked from the IO thread (these are also the payloads of the
`Task` objects placed on the synchronous-mode queue); the remainder are
the owner-facing operations. -/
inductive Op where
  | receiveResponse (r : WebResponse)
  | receiveData (buf : List Nat) (size : Nat)
  | receiveDataUrl (str : String)
  | receiveFileData (bytes : List Nat)
  | redirect (r : WebResponse)
  | fail (r : WebResponse)
  | finishLoading
  | authChallenge (host realm : String)
  | cancelOp
  | setAuthOp (username password : String)
  | cancelAuthOp
  | downloadFileOp
deriving Repr, DecidableEq

/-- The response-delivery operations: callbacks that forward response
data or metadata to the owner (everything the IO thread can deliver,
except the two terminal callbacks). -/
def Op.isDelivery : Op → Bool
  | .receiveResponse _ => true
  | .receiveData _ _ => true
  | .receiveDataUrl _ => true
  | .receiveFileData _ => true
  | .redirect _ => true
  | .authChallenge _ _ => true
  | _ => false

/-- The two terminal callbacks, which route through `finish`. -/
def Op.isTerminal : Op → Bool
  | .fail _ => true
  | .finishLoading => true
  | _ => false

/-- The member state of a `WebUrlLoaderClient`. -/
structure ClientState where
  cancelling : Bool
  sync : Bool
  finished : Bool
  resourceHandle : Option Bool
  request : Option WebRequest
  response : Option WebResponse
  queue : List Op
deriving Repr, DecidableEq

/-- The reentrant effect of the owner's `willSendRequest` callback
("WebKit may have killed the request"): the owner may rewrite the URL of
the candidate request, detach the handle's client, and call `cancel` on
the bridge. -/
structure RedirectReply where
  newUrl : String
  detachClient : Bool
  callCancel : Bool
deriving Repr, DecidableEq

/-- The owner's redirect policy: given the proposed redirect URL, how the
owner's `willSendRequest` callback reacts. -/
structure OwnerModel where
  redirectReply : String → RedirectReply

namespace ClientState

/-- Model of `WebUrlLoaderClient::isActive`.  `none` models the null-pointer
dereference `m_resourceHandle->client()` when the handle reference has
already been released. -/
def isActive (s : ClientState) : Option Bool :=
  if s.cancelling then some false
  else
    match s.resourceHandle with
    | none => none
    | some attached => some attached

/-- Model of `WebUrlLoaderClient::finish`: set the finished flag, release the
handle reference only in asynchronous mode, release the executor
reference. -/
def finish (s : ClientState) : ClientState :=
  { s with finished := true
         , resourceHandle := if s.sync then s.resourceHandle else none
         , request := none }

/-- Model of `WebUrlLoaderClient::cancel`: set the cancelling flag, then post a
cancel task to the IO thread if it is available. -/
def cancel (ioAvailable : Bool) (s : ClientState) : ClientState × List IoTask :=
  ({ s with cancelling := true }, if ioAvailable then [IoTask.cancel] else [])

/-- Model of `WebUrlLoaderClient::setAuth`: post a setAuth task if the IO thread
is available, otherwise return early. -/
def setAuth (ioAvailable : Bool) (s : ClientState) (username password : String) :
    ClientState × List IoTask :=
  (s, if ioAvailable then [IoTask.setAuth username password] else [])

/-- Model of `WebUrlLoaderClient::cancelAuth`: post a cancelAuth task if the IO
thread is available, otherwise return early. -/
def cancelAuth (ioAvailable : Bool) (s : ClientState) : ClientState × List IoTask :=
  (s, if ioAvailable then [IoTask.cancelAuth] else [])

/-- Model of `WebUrlLoaderClient::maybeCallOnMainThread`: in synchronous mode the
task is pushed on the back of the pending-callback queue (broadcasting
the condition variable when the queue was empty, which the drain model
renders as the blocked loop receiving the batch); in asynchronous mode
the task is handed to the owner context's run loop, returned here as the
second component. -/
def maybeCallOnMainThread (s : ClientState) (t : Op) : ClientState × List Op :=
  if s.sync then ({ s with queue := s.queue ++ [t] }, [])
  else (s, [t])

/-- Model of `WebUrlLoaderClient::didReceiveResponse`: drop if inactive, otherwise
store the response and forward it to the owner. -/
def didReceiveResponse (s : ClientState) (webResponse : WebResponse) :
    Option (ClientState × List OwnerCall) :=
  match s.isActive with
  | none => none
  | some false => some (s, [])
  | some true =>
      some ({ s with response := some webResponse },
            [OwnerCall.didReceiveResponse webResponse])

/-- Model of `WebUrlLoaderClient::didReceiveData`: drop if inactive, otherwise
forward the bytes (the inner null-and-client re-check of the source is
kept). -/
def didReceiveData (s : ClientState) (buf : List Nat) (size : Nat) :
    Option (ClientState × List OwnerCall) :=
  match s.isActive with
  | none => none
  | some false => some (s, [])
  | some true =>
      match s.resourceHandle with
      | some true => some (s, [OwnerCall.didReceiveData buf size])
      | _ => some (s, [])

/-- Model of `WebUrlLoaderClient::didReceiveDataUrl`: drop if inactive, otherwise
forward the characters of the string as data. -/
def didReceiveDataUrl (s : ClientState) (str : String) :
    Option (ClientState × List OwnerCall) :=
  match s.isActive with
  | none => none
  | some false => some (s, [])
  | some true =>
      some (s, [OwnerCall.didReceiveData (str.data.map Char.toNat) str.data.length])

/-- Model of `WebUrlLoaderClient::didReceiveAndroidFileData`: drop if inactive,
otherwise forward the bytes. -/
def didReceiveAndroidFileData (s : ClientState) (bytes : List Nat) :
    Option (ClientState × List OwnerCall) :=
  match s.isActive with
  | none => none
  | some false => some (s, [])
  | some true => some (s, [OwnerCall.didReceiveData bytes bytes.length])

/-- Model of `WebUrlLoaderClient::didFail`: forward the failure to the owner only
if active, then unconditionally `finish`. -/
def didFail (s : ClientState) (webResponse : WebResponse) :
    Option (ClientState × List OwnerCall) :=
  match s.isActive with
  | none => none
  | some true => some (s.finish, [OwnerCall.didFail webResponse])
  | some false => some (s.finish, [])

/-- Model of `WebUrlLoaderClient::didFinishLoading`: forward completion to the
owner only if active, then unconditionally `finish`. -/
def didFinishLoading (s : ClientState) : Option (ClientState × List OwnerCall) :=
  match s.isActive with
  | none => none
  | some true => some (s.finish, [OwnerCall.didFinishLoading])
  | some false => some (s.finish, [])

/-- Detach the client from the owner's handle (what a teardown inside an
owner callback does to `m_resourceHandle->client()`). -/
def detachHandleClient (s : ClientState) : ClientState :=
  { s with resourceHandle := s.resourceHandle.map (fun _ => false) }

/-- Apply the reentrant effect of the owner's `willSendRequest` callback:
possibly detach the client and possibly call `cancel`. -/
def applyReply (ioAvailable : Bool) (reply : RedirectReply) (s : ClientState) :
    ClientState × List IoTask :=
  let s1 := if reply.detachClient then s.detachHandleClient else s
  if reply.callCancel then s1.cancel ioAvailable else (s1, [])

/-- Model of `WebUrlLoaderClient::willSendRequest`: drop if inactive; otherwise
forward the candidate redirect to the owner, re-check `isActive` (the
owner may have torn the request down inside the callback), then either
post a follow-redirect task (URL left unmodified) or call `cancel` (URL
changed).  The follow-redirect post dereferences `ioThread()` without a
null check, hence `none` when the IO thread is unavailable. -/
def willSendRequest (ioAvailable : Bool) (reply : RedirectReply) (s : ClientState)
    (webResponse : WebResponse) : Option (ClientState × List IoTask × List OwnerCall) :=
  match s.isActive with
  | none => none
  | some false => some (s, [], [])
  | some true =>
      let url := webResponse.url
      let ownerCalls := [OwnerCall.willSendRequest url webResponse]
      match s.applyReply ioAvailable reply with
      | (s1, io1) =>
        match s1.isActive with
        | none => none
        | some false => some (s1, io1, ownerCalls)
        | some true =>
            if url == reply.newUrl then
              if ioAvailable then
                some (s1, io1 ++ [IoTask.followDeferredRedirect], ownerCalls)
              else none
            else
              match s1.cancel ioAvailable with
              | (s2, io2) => some (s2, io1 ++ io2, ownerCalls)

/-- Model of `WebUrlLoaderClient::authRequired`: drop if inactive, otherwise
forward host and realm to the owner with `useCachedCredentials` fixed to
false. -/
def authRequired (s : ClientState) (host realm : String) :
    Option (ClientState × List OwnerCall) :=
  match s.isActive with
  | none => none
  | some false => some (s, [])
  | some true =>
      some (s, [OwnerCall.didReceiveAuthenticationChallenge host realm false])

/-- Model of `WebUrlLoaderClient::downloadFile`: with a stored response, forward
the request URL, user agent, content-disposition header, mime type and
expected size to the owner; without one, `CRASH()` (and the accessors on
`m_request` dereference a released executor reference after `finish`). -/
def downloadFile (s : ClientState) : Option (ClientState × List OwnerCall) :=
  match s.response with
  | some response =>
      match s.request with
      | none => none
      | some request =>
          some (s, [OwnerCall.downloadStart request.url request.userAgent
                      (response.getHeader "content-disposition")
                      response.mimeType response.expectedSize])
  | none => none

/-- One operation on the bridge, dispatching to the member function it
names.  Used both for the tasks run by the synchronous drain loop and to
quantify over "any operation" in the lifecycle theorems. -/
def step (own : OwnerModel) (ioAvailable : Bool) (s : ClientState) :
    Op → Option (ClientState × List IoTask × List OwnerCall)
  | .receiveResponse r =>
      match s.didReceiveResponse r with
      | none => none
      | some (s1, oc) => some (s1, [], oc)
  | .receiveData buf size =>
      match s.didReceiveData buf size with
      | none => none
      | some (s1, oc) => some (s1, [], oc)
  | .receiveDataUrl str =>
      match s.didReceiveDataUrl str with
      | none => none
      | some (s1, oc) => some (s1, [], oc)
  | .receiveFileData bytes =>
      match s.didReceiveAndroidFileData bytes with
      | none => none
      | some (s1, oc) => some (s1, [], oc)
  | .redirect r => s.willSendRequest ioAvailable (own.redirectReply r.url) r
  | .fail r =>
      match s.didFail r with
      | none => none
      | some (s1, oc) => some (s1, [], oc)
  | .finishLoading =>
      match s.didFinishLoading with
      | none => none
      | some (s1, oc) => some (s1, [], oc)
  | .authChallenge host realm =>
      match s.authRequired host realm with
      | none => none
      | some (s1, oc) => some (s1, [], oc)
  | .cancelOp =>
      match s.cancel ioAvailable with
      | (s1, io) => some (s1, io, [])
  | .setAuthOp username password =>
      match s.setAuth ioAvailable username password with
      | (s1, io) => some (s1, io, [])
  | .cancelAuthOp =>
      match s.cancelAuth ioAvailable with
      | (s1, io) => some (s1, io, [])
  | .downloadFileOp =>
      match s.downloadFile with
      | none => none
      | some (s1, oc) => some (s1, [], oc)

/-- Run a list of operations in order, concatenating the posted IO tasks
and owner calls. -/
def runTasks (own : OwnerModel) (ioAvailable : Bool) :
    ClientState → List Op → Option (ClientState × List IoTask × List OwnerCall)
  | s, [] => some (s, [], [])
  | s, t :: ts =>
      match s.step own ioAvailable t with
      | none => none
      | some (s1, io1, oc1) =>
          match runTasks own ioAvailable s1 ts with
          | none => none
          | some (s2, io2, oc2) => some (s2, io1 ++ io2, oc1 ++ oc2)

/-- The blocking drain loop of the synchronous `start` path: while not
finished, run every queued task front first, and when the queue is empty
block on the condition variable until the worker delivers the next batch
of callback tasks; on exit release the handle reference.  Delivering
arrivals only at the wait points is faithful to the source's locking
discipline: the loop holds the sync lock except while waiting, and
`maybeCallOnMainThread` enqueues under that same lock, so the worker can
only enqueue while the loop is blocked.  `fuel` bounds the number of loop
iterations; the result carries the final state, the trace of tasks run
(in execution order), the IO tasks posted, and the owner calls made. -/
def drainLoop (own : OwnerModel) (ioAvailable : Bool) :
    Nat → ClientState → List (List Op) →
    Option (ClientState × List Op × List IoTask × List OwnerCall)
  | 0, _, _ => none
  | fuel + 1, s, schedule =>
      if s.finished then
        some ({ s with resourceHandle := none }, [], [], [])
      else
        match ClientState.runTasks own ioAvailable { s with queue := [] } s.queue with
        | none => none
        | some (s1, io1, oc1) =>
            if s1.finished then
              some ({ s1 with resourceHandle := none }, s.queue, io1, oc1)
            else
              match schedule with
              | [] => none
              | batch :: rest =>
                  match ClientState.drainLoop own ioAvailable fuel
                      { s1 with queue := batch } rest with
                  | none => none
                  | some (s2, trace, io2, oc2) =>
                      some (s2, s.queue ++ trace, io1 ++ io2, oc1 ++ oc2)

/-- Model of `WebUrlLoaderClient::start`: fail if the IO thread is unavailable;
otherwise record the mode, post the start task, and in synchronous mode
run the blocking drain loop on the calling thread.  The boolean in the
result is the return value of `start`. -/
def start (s : ClientState) (own : OwnerModel) (ioAvailable : Bool) (fuel : Nat)
    (schedule : List (List Op)) (sync isPrivateBrowsing : Bool) :
    Option (Bool × ClientState × List IoTask × List Op × List OwnerCall) :=
  if !ioAvailable then
    some (false, s, [], [], [])
  else
    let s1 := { s with sync := sync }
    if sync then
      match ClientState.drainLoop own ioAvailable fuel s1 schedule with
      | none => none
      | some (s2, trace, io, oc) =>
          some (true, s2, IoTask.start isPrivateBrowsing :: io, trace, oc)
    else
      some (true, s1, [IoTask.start isPrivateBrowsing], [], [])

end ClientState

/-- One element of the request body (`WebCore::FormDataElement`): raw
data, a file reference, or an encoded blob reference. -/
inductive FormDataElement where
  | data (bytes : List Nat)
  | encodedFile (filename : String)
  | encodedBlob
deriving Repr, DecidableEq

/-- The inbound `WebCore::ResourceRequest`, restricted to the fields the
two translated source files read. -/
structure ResourceRequestIn where
  url : String
  httpMethod : String
  httpHeaderFields : List (String × String)
  httpReferrer : String
  httpUserAgent : String
  httpBody : Option (List FormDataElement)
deriving Repr, DecidableEq

/-- The header-copy loop of `WebResourceRequest::WebResourceRequest`:
skip `referer` and `user-agent` (matched case-insensitively), skip a
`cache-control` header whose value is `max-age=0`, and copy every other
header unchanged. -/
def shapeHeaders : List (String × String) → List (String × String)
  | [] => []
  | (name, value) :: rest =>
      if lowerCaseEqualsASCII name "referer" || lowerCaseEqualsASCII name "user-agent" then
        shapeHeaders rest
      else if lowerCaseEqualsASCII name "cache-control" && lowerCaseEqualsASCII value "max-age=0" then
        shapeHeaders rest
      else
        (name, value) :: shapeHeaders rest

/-- The outgoing request assembled by `WebResourceRequest`. -/
structure WebResourceRequest where
  requestHeaders : List (String × String)
  method : String
  referrer : String
  userAgent : String
  url : String
deriving Repr, DecidableEq

/-- Model of `WebResourceRequest::WebResourceRequest(const ResourceRequest&)`:
shape the headers and copy method, referrer, user agent and URL. -/
def WebResourceRequest.ofResourceRequest (rr : ResourceRequestIn) : WebResourceRequest :=
  { requestHeaders := shapeHeaders rr.httpHeaderFields
  , method := rr.httpMethod
  , referrer := rr.httpReferrer
  , userAgent := rr.httpUserAgent
  , url := rr.url }

/-- The upload tasks the constructor posts for one body element: skip an
empty raw-data part; post its bytes otherwise (when the IO thread is
available); skip an empty filename; post the file otherwise; an encoded
blob (and any other kind) hits a fatal `LOG_ASSERT`, modelled as
`none`. -/
def uploadTasksForElement (ioAvailable : Bool) : FormDataElement → Option (List IoTask)
  | .data bytes =>
      if bytes.isEmpty then some []
      else if ioAvailable then some [IoTask.appendBytes bytes] else some []
  | .encodedFile filename =>
      if filename.data.length > 0 then
        if ioAvailable then some [IoTask.appendFile filename] else some []
      else some []
  | .encodedBlob => none

/-- The upload tasks posted for a whole body, in element order. -/
def uploadTasks (ioAvailable : Bool) : List FormDataElement → Option (List IoTask)
  | [] => some []
  | e :: es =>
      match uploadTasksForElement ioAvailable e with
      | none => none
      | some ts =>
          match uploadTasks ioAvailable es with
          | none => none
          | some rest => some (ts ++ rest)

/-- The member state written by the initializer list of the
`WebUrlLoaderClient` constructor (before its body runs): not cancelling,
asynchronous, not finished, handle reference held, no executor request
yet, no response, empty queue. -/
def initialClientState (clientAttached : Bool) : ClientState :=
  { cancelling := false
  , sync := false
  , finished := false
  , resourceHandle := some clientAttached
  , request := none
  , response := none
  , queue := [] }

/-- The body of the `WebUrlLoaderClient` constructor: build the
`WebResourceRequest`; for a special-scheme URL obtain a local data
stream from the owner (`inputStreamForAndroidResource`) and bind the
executor request to it, posting nothing; otherwise create a network
request and, when a body is present on a non-GET/HEAD method, post the
upload tasks.  The result pairs the constructed state with the IO tasks
posted during construction. -/
def constructClient (ioAvailable : Bool) (inputStreamForAndroidResource : String → Int)
    (clientAttached : Bool) (resourceRequest : ResourceRequestIn) :
    Option (ClientState × List IoTask) :=
  let webResourceRequest := WebResourceRequest.ofResourceRequest resourceRequest
  let base := initialClientState clientAttached
  if isAndroidUrl webResourceRequest.url then
    some ({ base with request := some (
            { url := webResourceRequest.url
            , userAgent := webResourceRequest.userAgent
            , inputStream := some (inputStreamForAndroidResource webResourceRequest.url) } : WebRequest) }, [])
  else
    let request : WebRequest :=
      { url := webResourceRequest.url
      , userAgent := webResourceRequest.userAgent
      , inputStream := none }
    let s := { base with request := some request }
    match resourceRequest.httpBody with
    | some elements =>
        if webResourceRequest.method == "GET" || webResourceRequest.method == "HEAD" then
          some (s, [])
        else
          match uploadTasks ioAvailable elements with
          | none => none
          | some tasks => some (s, tasks)
    | none => some (s, [])

/-- Construct a client and then call `start` on it, concatenating the IO
tasks posted by each phase in order. -/
def constructAndStart (own : OwnerModel) (ioAvailable : Bool)
    (inputStreamForAndroidResource : String → Int) (clientAttached : Bool)
    (resourceRequest : ResourceRequestIn) (fuel : Nat) (schedule : List (List Op))
    (sync isPrivateBrowsing : Bool) :
    Option (Bool × ClientState × List IoTask × List Op × List OwnerCall) :=
  match constructClient ioAvailable inputStreamForAndroidResource clientAttached resourceRequest with
  | none => none
  | some (s, io1) =>
      match s.start own ioAvailable fuel schedule sync isPrivateBrowsing with
      | none => none
      | some (ok, s1, io2, trace, oc) => some (ok, s1, io1 ++ io2, trace, oc)

/-- The specification's description of the per-body-part upload tasks
(spec section 4.2): a zero-length raw-data part and an empty-filename
file part are skipped, every other raw-data part appends its bytes and
every other file part appends the file. -/
def specUploadTask : FormDataElement → List IoTask
  | .data bytes => if bytes.isEmpty then [] else [IoTask.appendBytes bytes]
  | .encodedFile filename =>
      if filename.data.length = 0 then [] else [IoTask.appendFile filename]
  | .encodedBlob => []

/-- The `isActive` predicate as the specification states it (spec section
4.4): the lifecycle state is neither Cancelling nor Finished and the
owner's handle still has an attached client. -/
def specIsActive (s : ClientState) : Bool :=
  !s.cancelling && !s.finished && (s.resourceHandle.getD false)

/-- A fixed owner model for concrete evaluations: the redirect callback
leaves the URL unmodified and does not tear the request down. -/
def plainOwner : OwnerModel :=
  { redirectReply := fun url => { newUrl := url, detachClient := false, callCancel := false } }

/-- A concrete response used to evaluate the theorems on concrete inputs. -/
def demoResponse : WebResponse :=
  { url := "http://u/"
  , headers := [("content-disposition", "attachment"), ("x", "y")]
  , mimeType := "text/html"
  , expectedSize := 42 }

/-- A bridge state that has finished (in synchronous mode, so the handle
reference is still held) without being cancelled, with the client still
attached. -/
def finishedSyncState : ClientState :=
  { cancelling := false
  , sync := true
  , finished := true
  , resourceHandle := some true
  , request := none
  , response := none
  , queue := [] }

namespace ClientState

/-- Fields preserved by every callback: the pending queue and the mode
flag are untouched, and a set cancelling flag is never cleared. -/
def preserves (s s' : ClientState) : Prop :=
  s'.queue = s.queue ∧ s'.sync = s.sync ∧ (s.cancelling = true → s'.cancelling = true)

theorem preserves_refl (s : ClientState) : preserves s s := ⟨rfl, rfl, fun h => h⟩

theorem finish_preserves (s : ClientState) : preserves s s.finish :=
  ⟨rfl, rfl, fun h => h⟩

theorem didReceiveResponse_pres (s : ClientState) (r : WebResponse) (s' : ClientState)
    (oc : List OwnerCall) (h : s.didReceiveResponse r = some (s', oc)) : preserves s s' := by
  unfold didReceiveResponse at h
  rcases hA : s.isActive with _ | b
  · rw [hA] at h; exact Option.noConfusion h
  · rw [hA] at h
    cases b <;> simp only [Option.some.injEq, Prod.mk.injEq] at h <;>
      (rw [← h.1]; exact ⟨rfl, rfl, fun hc => hc⟩)

theorem didReceiveData_pres (s : ClientState) (buf : List Nat) (size : Nat) (s' : ClientState)
    (oc : List OwnerCall) (h : s.didReceiveData buf size = some (s', oc)) : preserves s s' := by
  unfold didReceiveData at h
  rcases hA : s.isActive with _ | b
  · rw [hA] at h; exact Option.noConfusion h
  · rw [hA] at h
    cases b
    · simp only [Option.some.injEq, Prod.mk.injEq] at h
      rw [← h.1]; exact preserves_refl s
    · rcases hH : s.resourceHandle with _ | c
      · rw [hH] at h
        simp only [Option.some.injEq, Prod.mk.injEq] at h
        rw [← h.1]; exact preserves_refl s
      · rw [hH] at h
        cases c <;> simp only [Option.some.injEq, Prod.mk.injEq] at h <;>
          (rw [← h.1]; exact preserves_refl s)

theorem didReceiveDataUrl_pres (s : ClientState) (str : String) (s' : ClientState)
    (oc : List OwnerCall) (h : s.didReceiveDataUrl str = some (s', oc)) : preserves s s' := by
  unfold didReceiveDataUrl at h
  rcases hA : s.isActive with _ | b
  · rw [hA] at h; exact Option.noConfusion h
  · rw [hA] at h
    cases b <;> simp only [Option.some.injEq, Prod.mk.injEq] at h <;>
      (rw [← h.1]; exact preserves_refl s)

theorem didReceiveAndroidFileData_pres (s : ClientState) (bytes : List Nat) (s' : ClientState)
    (oc : List OwnerCall) (h : s.didReceiveAndroidFileData bytes = some (s', oc)) :
    preserves s s' := by
  unfold didReceiveAndroidFileData at h
  rcases hA : s.isActive with _ | b
  · rw [hA] at h; exact Option.noConfusion h
  · rw [hA] at h
    cases b <;> simp only [Option.some.injEq, Prod.mk.injEq] at h <;>
      (rw [← h.1]; exact preserves_refl s)

theorem didFail_pres (s : ClientState) (r : WebResponse) (s' : ClientState)
    (oc : List OwnerCall) (h : s.didFail r = some (s', oc)) : preserves s s' := by
  unfold didFail at h
  rcases hA : s.isActive with _ | b
  · rw [hA] at h; exact Option.noConfusion h
  · rw [hA] at h
    cases b <;> simp only [Option.some.injEq, Prod.mk.injEq] at h <;>
      (rw [← h.1]; exact finish_preserves s)

theorem didFinishLoading_pres (s : ClientState) (s' : ClientState)
    (oc : List OwnerCall) (h : s.didFinishLoading = some (s', oc)) : preserves s s' := by
  unfold didFinishLoading at h
  rcases hA : s.isActive with _ | b
  · rw [hA] at h; exact Option.noConfusion h
  · rw [hA] at h
    cases b <;> simp only [Option.some.injEq, Prod.mk.injEq] at h <;>
      (rw [← h.1]; exact finish_preserves s)

theorem authRequired_pres (s : ClientState) (host realm : String) (s' : ClientState)
    (oc : List OwnerCall) (h : s.authRequired host realm = some (s', oc)) : preserves s s' := by
  unfold authRequired at h
  rcases hA : s.isActive with _ | b
  · rw [hA] at h; exact Option.noConfusion h
  · rw [hA] at h
    cases b <;> simp only [Option.some.injEq, Prod.mk.injEq] at h <;>
      (rw [← h.1]; exact preserves_refl s)

theorem downloadFile_pres (s : ClientState) (s' : ClientState)
    (oc : List OwnerCall) (h : s.downloadFile = some (s', oc)) : preserves s s' := by
  unfold downloadFile at h
  rcases hR : s.response with _ | resp
  · rw [hR] at h; exact Option.noConfusion h
  · rw [hR] at h
    rcases hQ : s.request with _ | req
    · rw [hQ] at h; exact Option.noConfusion h
    · rw [hQ] at h
      simp only [Option.some.injEq, Prod.mk.injEq] at h
      rw [← h.1]; exact preserves_refl s

theorem cancel_pres (av : Bool) (s : ClientState) : preserves s (s.cancel av).1 :=
  ⟨rfl, rfl, fun _ => rfl⟩

theorem detachHandleClient_pres (s : ClientState) : preserves s s.detachHandleClient :=
  ⟨rfl, rfl, fun h => h⟩

theorem preserves_trans (s1 s2 s3 : ClientState) (h1 : preserves s1 s2)
    (h2 : preserves s2 s3) : preserves s1 s3 :=
  ⟨h2.1.trans h1.1, h2.2.1.trans h1.2.1, fun hc => h2.2.2 (h1.2.2 hc)⟩

theorem applyReply_pres (av : Bool) (reply : RedirectReply) (s : ClientState) :
    preserves s (s.applyReply av reply).1 := by
  unfold applyReply
  by_cases hd : reply.detachClient = true <;> by_cases hc : reply.callCancel = true <;>
    simp only [hd, hc, if_true, if_false, Bool.false_eq_true]
  · exact preserves_trans _ _ _ (detachHandleClient_pres s) (cancel_pres av _)
  · exact detachHandleClient_pres s
  · exact cancel_pres av s
  · exact preserves_refl s

theorem willSendRequest_pres (av : Bool) (reply : RedirectReply) (s : ClientState)
    (r : WebResponse) (s' : ClientState) (io : List IoTask) (oc : List OwnerCall)
    (h : s.willSendRequest av reply r = some (s', io, oc)) : preserves s s' := by
  unfold willSendRequest at h
  rcases hA : s.isActive with _ | b
  · rw [hA] at h; exact Option.noConfusion h
  · rw [hA] at h
    cases b
    · simp only [Option.some.injEq, Prod.mk.injEq] at h
      rw [← h.1]; exact preserves_refl s
    · rcases hR : s.applyReply av reply with ⟨s1, io1⟩
      rw [hR] at h
      simp only at h
      have hp1 : preserves s s1 := by
        have := applyReply_pres av reply s; rw [hR] at this; exact this
      rcases hA1 : s1.isActive with _ | b1
      · rw [hA1] at h; exact Option.noConfusion h
      · rw [hA1] at h
        cases b1
        · simp only [Option.some.injEq, Prod.mk.injEq] at h
          rw [← h.1]; exact hp1
        · by_cases hu : (r.url == reply.newUrl) = true
          · rw [if_pos hu] at h
            by_cases hav : av = true
            · rw [if_pos hav] at h
              simp only [Option.some.injEq, Prod.mk.injEq] at h
              rw [← h.1]; exact hp1
            · rw [if_neg hav] at h; exact Option.noConfusion h
          · rw [if_neg hu] at h
            rcases hC : s1.cancel av with ⟨s2, io2⟩
            rw [hC] at h
            simp only [Option.some.injEq, Prod.mk.injEq] at h
            rw [← h.1]
            have hp2 : preserves s1 s2 := by
              have := cancel_pres av s1; rw [hC] at this; exact this
            exact preserves_trans _ _ _ hp1 hp2

end ClientState

namespace ClientState

theorem step_pres (own : OwnerModel) (av : Bool) (s : ClientState) (op : Op)
    (s' : ClientState) (io : List IoTask) (oc : List OwnerCall)
    (h : s.step own av op = some (s', io, oc)) : preserves s s' := by
  cases op with
  | receiveResponse r =>
    unfold step at h
    simp only at h
    rcases hF : s.didReceiveResponse r with _ | ⟨s1, oc1⟩
    · rw [hF] at h; exact Option.noConfusion h
    · rw [hF] at h
      simp only [Option.some.injEq, Prod.mk.injEq] at h
      rw [← h.1]; exact didReceiveResponse_pres s r s1 oc1 hF
  | receiveData buf size =>
    unfold step at h
    simp only at h
    rcases hF : s.didReceiveData buf size with _ | ⟨s1, oc1⟩
    · rw [hF] at h; exact Option.noConfusion h
    · rw [hF] at h
      simp only [Option.some.injEq, Prod.mk.injEq] at h
      rw [← h.1]; exact didReceiveData_pres s buf size s1 oc1 hF
  | receiveDataUrl str =>
    unfold step at h
    simp only at h
    rcases hF : s.didReceiveDataUrl str with _ | ⟨s1, oc1⟩
    · rw [hF] at h; exact Option.noConfusion h
    · rw [hF] at h
      simp only [Option.some.injEq, Prod.mk.injEq] at h
      rw [← h.1]; exact didReceiveDataUrl_pres s str s1 oc1 hF
  | receiveFileData bytes =>
    unfold step at h
    simp only at h
    rcases hF : s.didReceiveAndroidFileData bytes with _ | ⟨s1, oc1⟩
    · rw [hF] at h; exact Option.noConfusion h
    · rw [hF] at h
      simp only [Option.some.injEq, Prod.mk.injEq] at h
      rw [← h.1]; exact didReceiveAndroidFileData_pres s bytes s1 oc1 hF
  | redirect r =>
    unfold step at h
    simp only at h
    exact willSendRequest_pres av (own.redirectReply r.url) s r s' io oc h
  | fail r =>
    unfold step at h
    simp only at h
    rcases hF : s.didFail r with _ | ⟨s1, oc1⟩
    · rw [hF] at h; exact Option.noConfusion h
    · rw [hF] at h
      simp only [Option.some.injEq, Prod.mk.injEq] at h
      rw [← h.1]; exact didFail_pres s r s1 oc1 hF
  | finishLoading =>
    unfold step at h
    simp only at h
    rcases hF : s.didFinishLoading with _ | ⟨s1, oc1⟩
    · rw [hF] at h; exact Option.noConfusion h
    · rw [hF] at h
      simp only [Option.some.injEq, Prod.mk.injEq] at h
      rw [← h.1]; exact didFinishLoading_pres s s1 oc1 hF
  | authChallenge host realm =>
    unfold step at h
    simp only at h
    rcases hF : s.authRequired host realm with _ | ⟨s1, oc1⟩
    · rw [hF] at h; exact Option.noConfusion h
    · rw [hF] at h
      simp only [Option.some.injEq, Prod.mk.injEq] at h
      rw [← h.1]; exact authRequired_pres s host realm s1 oc1 hF
  | cancelOp =>
    unfold step at h
    simp only at h
    simp only [Option.some.injEq, Prod.mk.injEq] at h
    rw [← h.1]; exact cancel_pres av s
  | setAuthOp username password =>
    unfold step at h
    simp only at h
    simp only [Option.some.injEq, Prod.mk.injEq] at h
    rw [← h.1]; exact preserves_refl s
  | cancelAuthOp =>
    unfold step at h
    simp only at h
    simp only [Option.some.injEq, Prod.mk.injEq] at h
    rw [← h.1]; exact preserves_refl s
  | downloadFileOp =>
    unfold step at h
    simp only at h
    rcases hF : s.downloadFile with _ | ⟨s1, oc1⟩
    · rw [hF] at h; exact Option.noConfusion h
    · rw [hF] at h
      simp only [Option.some.injEq, Prod.mk.injEq] at h
      rw [← h.1]; exact downloadFile_pres s s1 oc1 hF

theorem runTasks_pres (own : OwnerModel) (av : Bool) :
    ∀ (ts : List Op) (s s' : ClientState) (io : List IoTask) (oc : List OwnerCall),
    runTasks own av s ts = some (s', io, oc) → preserves s s' := by
  intro ts
  induction ts with
  | nil =>
    intro s s' io oc h
    unfold runTasks at h
    simp only [Option.some.injEq, Prod.mk.injEq] at h
    rw [← h.1]; exact preserves_refl s
  | cons t ts ih =>
    intro s s' io oc h
    unfold runTasks at h
    rcases hS : s.step own av t with _ | ⟨s1, io1, oc1⟩
    · rw [hS] at h; exact Option.noConfusion h
    · rw [hS] at h
      simp only at h
      rcases hR : runTasks own av s1 ts with _ | ⟨s2, io2, oc2⟩
      · rw [hR] at h; exact Option.noConfusion h
      · rw [hR] at h
        simp only [Option.some.injEq, Prod.mk.injEq] at h
        rw [← h.1]
        exact preserves_trans _ _ _ (step_pres own av s t s1 io1 oc1 hS) (ih s1 s2 io2 oc2 hR)

end ClientState

namespace ClientState

theorem isActive_of_cancelling (s : ClientState) (h : s.cancelling = true) :
    s.isActive = some false := by
  unfold isActive; rw [h]; rfl

theorem inactive_step (own : OwnerModel) (av : Bool) (s : ClientState) (op : Op)
    (hD : op.isDelivery = true) (hA : s.isActive = some false) :
    s.step own av op = some (s, [], []) := by
  cases op with
  | receiveResponse r => unfold step didReceiveResponse; rw [hA]
  | receiveData buf size => unfold step didReceiveData; rw [hA]
  | receiveDataUrl str => unfold step didReceiveDataUrl; rw [hA]
  | receiveFileData bytes => unfold step didReceiveAndroidFileData; rw [hA]
  | redirect r => unfold step willSendRequest; rw [hA]
  | authChallenge host realm => unfold step authRequired; rw [hA]
  | fail r => simp [Op.isDelivery] at hD
  | finishLoading => simp [Op.isDelivery] at hD
  | cancelOp => simp [Op.isDelivery] at hD
  | setAuthOp u p => simp [Op.isDelivery] at hD
  | cancelAuthOp => simp [Op.isDelivery] at hD
  | downloadFileOp => simp [Op.isDelivery] at hD

theorem terminal_step_of_cancelling (own : OwnerModel) (av : Bool) (s : ClientState) (op : Op)
    (hT : op.isTerminal = true) (hc : s.cancelling = true) :
    s.step own av op = some (s.finish, [], []) := by
  cases op with
  | fail r => unfold step didFail; rw [isActive_of_cancelling s hc]
  | finishLoading => unfold step didFinishLoading; rw [isActive_of_cancelling s hc]
  | receiveResponse r => simp [Op.isTerminal] at hT
  | receiveData buf size => simp [Op.isTerminal] at hT
  | receiveDataUrl str => simp [Op.isTerminal] at hT
  | receiveFileData bytes => simp [Op.isTerminal] at hT
  | redirect r => simp [Op.isTerminal] at hT
  | authChallenge host realm => simp [Op.isTerminal] at hT
  | cancelOp => simp [Op.isTerminal] at hT
  | setAuthOp u p => simp [Op.isTerminal] at hT
  | cancelAuthOp => simp [Op.isTerminal] at hT
  | downloadFileOp => simp [Op.isTerminal] at hT

theorem set_cancelling_eq_self (s : ClientState) (h : s.cancelling = true) :
    ({ s with cancelling := true } : ClientState) = s := by
  cases s
  simp only at h
  rw [h]

theorem downloadFile_state (s s' : ClientState) (oc : List OwnerCall)
    (h : s.downloadFile = some (s', oc)) : s' = s := by
  unfold downloadFile at h
  rcases hR : s.response with _ | resp
  · rw [hR] at h; exact Option.noConfusion h
  · rw [hR] at h
    rcases hQ : s.request with _ | req
    · rw [hQ] at h; exact Option.noConfusion h
    · rw [hQ] at h
      simp only [Option.some.injEq, Prod.mk.injEq] at h
      exact h.1.symm

theorem other_step_of_cancelling (own : OwnerModel) (av : Bool) (s : ClientState) (op : Op)
    (hD : op.isDelivery = false) (hT : op.isTerminal = false) (hc : s.cancelling = true)
    (s' : ClientState) (io : List IoTask) (oc : List OwnerCall)
    (h : s.step own av op = some (s', io, oc)) : s' = s := by
  cases op with
  | receiveResponse r => simp [Op.isDelivery] at hD
  | receiveData buf size => simp [Op.isDelivery] at hD
  | receiveDataUrl str => simp [Op.isDelivery] at hD
  | receiveFileData bytes => simp [Op.isDelivery] at hD
  | redirect r => simp [Op.isDelivery] at hD
  | authChallenge host realm => simp [Op.isDelivery] at hD
  | fail r => simp [Op.isTerminal] at hT
  | finishLoading => simp [Op.isTerminal] at hT
  | cancelOp =>
    unfold step cancel at h
    simp only [Option.some.injEq, Prod.mk.injEq] at h
    rw [← h.1]
    exact set_cancelling_eq_self s hc
  | setAuthOp u p =>
    unfold step setAuth at h
    simp only [Option.some.injEq, Prod.mk.injEq] at h
    exact h.1.symm
  | cancelAuthOp =>
    unfold step cancelAuth at h
    simp only [Option.some.injEq, Prod.mk.injEq] at h
    exact h.1.symm
  | downloadFileOp =>
    unfold step at h
    simp only at h
    rcases hF : s.downloadFile with _ | ⟨s1, oc1⟩
    · rw [hF] at h; exact Option.noConfusion h
    · rw [hF] at h
      simp only [Option.some.injEq, Prod.mk.injEq] at h
      rw [← h.1]
      exact downloadFile_state s s1 oc1 hF

theorem finish_idem (s : ClientState) : s.finish.finish = s.finish := by
  unfold finish
  cases hs : s.sync <;> simp [hs]

theorem didFail_state (s : ClientState) (r : WebResponse) (s' : ClientState)
    (oc : List OwnerCall) (h : s.didFail r = some (s', oc)) : s' = s.finish := by
  unfold didFail at h
  rcases hA : s.isActive with _ | b
  · rw [hA] at h; exact Option.noConfusion h
  · rw [hA] at h
    cases b <;> simp only [Option.some.injEq, Prod.mk.injEq] at h <;> exact h.1.symm

end ClientState

namespace ClientState

theorem drainLoop_spec (own : OwnerModel) (av : Bool) :
    ∀ (fuel : Nat) (s : ClientState) (schedule : List (List Op)) (s' : ClientState)
      (trace : List Op) (io : List IoTask) (oc : List OwnerCall),
    s.finished = false →
    drainLoop own av fuel s schedule = some (s', trace, io, oc) →
    s'.finished = true ∧ s'.queue = [] ∧ s'.resourceHandle = none ∧
    ∃ k, trace = s.queue ++ (schedule.take k).flatten := by
  intro fuel
  induction fuel with
  | zero =>
    intro s sched s' tr io oc hf h
    exact Option.noConfusion h
  | succ fuel ih =>
    intro s sched s' tr io oc hf h
    unfold drainLoop at h
    rw [if_neg (by simp [hf])] at h
    rcases hRT : runTasks own av { s with queue := [] } s.queue with _ | ⟨s1, io1, oc1⟩
    · rw [hRT] at h; exact Option.noConfusion h
    · rw [hRT] at h
      simp only at h
      have hq1 : s1.queue = [] :=
        (runTasks_pres own av s.queue { s with queue := [] } s1 io1 oc1 hRT).1
      cases hf1 : s1.finished with
      | true =>
        rw [if_pos hf1] at h
        simp only [Option.some.injEq, Prod.mk.injEq] at h
        obtain ⟨h1, h2, _, _⟩ := h
        refine ⟨?_, ?_, ?_, 0, ?_⟩
        · rw [← h1]; exact hf1
        · rw [← h1]; exact hq1
        · rw [← h1]
        · rw [← h2]; simp
      | false =>
        rw [if_neg (by simp [hf1])] at h
        cases sched with
        | nil => exact Option.noConfusion h
        | cons batch rest =>
          simp only at h
          rcases hDL : drainLoop own av fuel { s1 with queue := batch } rest
              with _ | ⟨s2, tr2, io2, oc2⟩
          · rw [hDL] at h; exact Option.noConfusion h
          · rw [hDL] at h
            simp only [Option.some.injEq, Prod.mk.injEq] at h
            obtain ⟨h1, h2, _, _⟩ := h
            have hrec := ih { s1 with queue := batch } rest s2 tr2 io2 oc2 hf1 hDL
            obtain ⟨hA, hB, hC, k, hk⟩ := hrec
            refine ⟨?_, ?_, ?_, k + 1, ?_⟩
            · rw [← h1]; exact hA
            · rw [← h1]; exact hB
            · rw [← h1]; exact hC
            · rw [← h2, hk]
              simp only [List.take_succ_cons, List.flatten_cons, List.append_assoc]

end ClientState

/-- Claim C1: in synchronous mode `start` returns only when the finished
flag is set and the pending-callback queue is empty; every callback task
the background worker enqueued is popped from the front of the queue and
run on the calling thread in FIFO enqueue order — the execution trace is
exactly the flattening of the consumed prefix of the arrival schedule —
before `start` returns; and after the drain loop exits the owner-handle
reference is released. -/
theorem C1_sync_start_drains (own : OwnerModel) (fuel : Nat)
    (schedule : List (List Op)) (s : ClientState) (priv : Bool)
    (hq : s.queue = []) (hf : s.finished = false)
    (ok : Bool) (s' : ClientState) (io : List IoTask) (trace : List Op)
    (oc : List OwnerCall)
    (h : s.start own true fuel schedule true priv = some (ok, s', io, trace, oc)) :
    ok = true ∧ s'.finished = true ∧ s'.queue = [] ∧ s'.resourceHandle = none ∧
    ∃ k, trace = (schedule.take k).flatten := by
  unfold ClientState.start at h
  simp only [Bool.not_true, Bool.false_eq_true, if_false, if_true] at h
  rcases hDL : ClientState.drainLoop own true fuel { s with sync := true } schedule
      with _ | ⟨s2, tr2, io2, oc2⟩
  · rw [hDL] at h; exact Option.noConfusion h
  · rw [hDL] at h
    simp only [Option.some.injEq, Prod.mk.injEq] at h
    obtain ⟨hok, h1, _, h3, _⟩ := h
    have hspec := ClientState.drainLoop_spec own true fuel { s with sync := true }
      schedule s2 tr2 io2 oc2 hf hDL
    obtain ⟨hA, hB, hC, k, hk⟩ := hspec
    refine ⟨hok.symm, ?_, ?_, ?_, k, ?_⟩
    · rw [← h1]; exact hA
    · rw [← h1]; exact hB
    · rw [← h1]; exact hC
    · rw [← h3, hk]
      simp [hq]

/-- Claim C1 witness: a synchronous start on a fresh client whose worker
delivers a single finish callback. -/
theorem C1_sync_start_drains_witness :
    true = true ∧
    (ClientState.mk false true true none none none []).finished = true ∧
    (ClientState.mk false true true none none none []).queue = [] ∧
    (ClientState.mk false true true none none none []).resourceHandle = none ∧
    ∃ k, ([Op.finishLoading] : List Op) = (([[Op.finishLoading]] : List (List Op)).take k).flatten :=
  C1_sync_start_drains plainOwner 5 [[Op.finishLoading]] (initialClientState true) false
    rfl rfl true (ClientState.mk false true true none none none [])
    [IoTask.start false] [Op.finishLoading] [OwnerCall.didFinishLoading] rfl

/-- Claim C2: `didFail` forwards the failure to the owner exactly when the
request is active and unconditionally performs the finish transition;
calling `didFail` twice in sequence yields the same final state as calling
it once; and the finish transition sets the finished flag, clears the
executor reference, and clears the handle reference exactly when the mode
is asynchronous. -/
theorem C2_didFail_finish_once :
    (∀ (s : ClientState) (r : WebResponse), s.isActive = some true →
        s.didFail r = some (s.finish, [OwnerCall.didFail r]))
    ∧ (∀ (s : ClientState) (r : WebResponse), s.isActive = some false →
        s.didFail r = some (s.finish, []))
    ∧ (∀ (s s1 s2 : ClientState) (r r2 : WebResponse) (oc1 oc2 : List OwnerCall),
        s.didFail r = some (s1, oc1) → s1.didFail r2 = some (s2, oc2) → s2 = s1)
    ∧ (∀ (s : ClientState) (c : Bool), s.resourceHandle = some c →
        s.finish.finished = true ∧ s.finish.request = none ∧
        (s.finish.resourceHandle = none ↔ s.sync = false)) := by
  refine ⟨?_, ?_, ?_, ?_⟩
  · intro s r hA
    unfold ClientState.didFail
    rw [hA]
  · intro s r hA
    unfold ClientState.didFail
    rw [hA]
  · intro s s1 s2 r r2 oc1 oc2 h1 h2
    have hs1 : s1 = s.finish := ClientState.didFail_state s r s1 oc1 h1
    have hs2 : s2 = s1.finish := ClientState.didFail_state s1 r2 s2 oc2 h2
    rw [hs2, hs1]
    exact ClientState.finish_idem s
  · intro s c hc
    refine ⟨rfl, rfl, ?_⟩
    cases hs : s.sync <;> simp [ClientState.finish, hs, hc]

/-- Claim C2 witness: a double failure on a synchronous request finishes
once, and the finish transition evaluated on a fresh asynchronous client
clears the handle. -/
theorem C2_didFail_finish_once_witness :
    ({ initialClientState true with sync := true } : ClientState).didFail demoResponse
      = some (({ initialClientState true with sync := true } : ClientState).finish,
              [OwnerCall.didFail demoResponse])
    ∧ ({ initialClientState true with cancelling := true } : ClientState).didFail demoResponse
      = some (({ initialClientState true with cancelling := true } : ClientState).finish, [])
    ∧ ({ initialClientState true with sync := true } : ClientState).finish.finish
      = ({ initialClientState true with sync := true } : ClientState).finish
    ∧ ((initialClientState true).finish.finished = true ∧
        (initialClientState true).finish.request = none ∧
        ((initialClientState true).finish.resourceHandle = none ↔
          (initialClientState true).sync = false)) :=
  ⟨C2_didFail_finish_once.1 _ demoResponse rfl,
   C2_didFail_finish_once.2.1 _ demoResponse rfl,
   C2_didFail_finish_once.2.2.1 ({ initialClientState true with sync := true })
     ({ initialClientState true with sync := true } : ClientState).finish
     ({ initialClientState true with sync := true } : ClientState).finish.finish
     demoResponse demoResponse [OwnerCall.didFail demoResponse]
     [OwnerCall.didFail demoResponse] rfl rfl,
   C2_didFail_finish_once.2.2.2 (initialClientState true) true rfl⟩

/-- Claim C3 counterexample: a state that is finished (synchronous mode,
handle still held, client still attached) but not cancelling.  The code's
`isActive` returns true on it, while the predicate claimed by the
specification — neither Cancelling nor Finished, client attached — is
false: `isActive` does not consult the finished flag. -/
theorem C3_isActive_counterexample :
    finishedSyncState.isActive = some true ∧ specIsActive finishedSyncState = false :=
  ⟨rfl, rfl⟩

/-- Claim C3 (amended): for a held handle reference, `isActive` is true
exactly when the request is not cancelling and the handle still has an
attached client (the finished flag is not consulted); and every
response-delivery operation invoked while `isActive` is false returns
with the state unchanged, forwarding nothing to the owner and posting
nothing. -/
theorem C3_isActive_gate :
    (∀ (s : ClientState) (c : Bool), s.resourceHandle = some c →
        (s.isActive = some true ↔ (s.cancelling = false ∧ c = true)))
    ∧ (∀ (own : OwnerModel) (av : Bool) (s : ClientState) (op : Op),
        op.isDelivery = true → s.isActive = some false →
        s.step own av op = some (s, [], [])) := by
  refine ⟨?_, ?_⟩
  · intro s c hc
    cases hcan : s.cancelling <;> simp [ClientState.isActive, hcan, hc]
  · intro own av s op hD hA
    exact ClientState.inactive_step own av s op hD hA

/-- Claim C3 witness: the characterization evaluated on a fresh client,
and a data-delivery callback dropped on a cancelled client. -/
theorem C3_isActive_gate_witness :
    ((initialClientState true).isActive = some true ↔
      ((initialClientState true).cancelling = false ∧ true = true))
    ∧ ({ initialClientState true with cancelling := true } : ClientState).step plainOwner true
        (Op.receiveData [7] 1)
      = some (({ initialClientState true with cancelling := true } : ClientState), [], []) :=
  ⟨C3_isActive_gate.1 (initialClientState true) true rfl,
   C3_isActive_gate.2 plainOwner true _ (Op.receiveData [7] 1) rfl rfl⟩

/-- Claim C5: when the IO thread is unavailable, `start` returns false and
leaves the entire bridge state unchanged — the mode flag is not written,
no task is posted, and the request is still neither cancelling nor
finished (lifecycle state Created). -/
theorem C5_start_unavailable_worker (own : OwnerModel) (fuel : Nat)
    (schedule : List (List Op)) (s : ClientState) (sync priv : Bool) :
    s.start own false fuel schedule sync priv = some (false, s, [], [], []) := rfl

/-- Claim C6: `downloadFile` before any received response is fatal (the
process halts, modelled as `none`); with a stored response (and a live
executor reference) it forwards to the owner exactly the request URL, the
request user agent, the response content-disposition header value, the
response mime type and the response expected size. -/
theorem C6_downloadFile_contract (s : ClientState) :
    (s.response = none → s.downloadFile = none)
    ∧ (∀ (resp : WebResponse) (req : WebRequest),
        s.response = some resp → s.request = some req →
        s.downloadFile = some (s, [OwnerCall.downloadStart req.url req.userAgent
          (resp.getHeader "content-disposition") resp.mimeType resp.expectedSize])) := by
  refine ⟨?_, ?_⟩
  · intro h
    unfold ClientState.downloadFile
    rw [h]
  · intro resp req h1 h2
    unfold ClientState.downloadFile
    rw [h1, h2]

/-- Claim C6 witness: `downloadFile` evaluated before any response on the
fresh client, and after a stored response on a client with a live
request. -/
theorem C6_downloadFile_contract_witness :
    (initialClientState true).downloadFile = none
    ∧ ({ initialClientState true with
          request := some { url := "http://u/", userAgent := "UA", inputStream := none }
        , response := some demoResponse } : ClientState).downloadFile
      = some (({ initialClientState true with
          request := some { url := "http://u/", userAgent := "UA", inputStream := none }
        , response := some demoResponse } : ClientState),
        [OwnerCall.downloadStart "http://u/" "UA" "attachment" "text/html" 42]) :=
  ⟨(C6_downloadFile_contract (initialClientState true)).1 rfl,
   (C6_downloadFile_contract _).2 demoResponse
     { url := "http://u/", userAgent := "UA", inputStream := none } rfl rfl⟩

/-- Claim C9: the header-shaping step evaluated at the failing input.  A
`cache-control: max-age=0` header is dropped unconditionally — there is
no load-directive condition in the code (its own comment says the
described load-flag behaviour is not implemented) — while `referer` and
`user-agent` are dropped and all other headers are copied unchanged. -/
theorem C9_cache_control_always_dropped :
    shapeHeaders [("Cache-Control", "max-age=0")] = []
    ∧ shapeHeaders [("Accept", "text/html"), ("Referer", "http://a/"),
        ("User-Agent", "Browser"), ("Cache-Control", "max-age=0"), ("X-Custom", "v")]
      = [("Accept", "text/html"), ("X-Custom", "v")] :=
  ⟨by decide, by decide⟩

/-- Claim C10: cancellation is irreversible.  Once the cancelling flag is
set, no sequence of operations clears it; while cancelled, every
response-delivery operation leaves the state unchanged and forwards
nothing to the owner, the two terminal callbacks still perform the finish
transition (forwarding nothing), and no other operation changes the
bridge state. -/
theorem C10_cancel_irreversible :
    (∀ (own : OwnerModel) (av : Bool) (ops : List Op) (s s' : ClientState)
        (io : List IoTask) (oc : List OwnerCall),
        s.cancelling = true →
        ClientState.runTasks own av s ops = some (s', io, oc) → s'.cancelling = true)
    ∧ (∀ (own : OwnerModel) (av : Bool) (s : ClientState) (op : Op),
        s.cancelling = true →
        (op.isDelivery = true → s.step own av op = some (s, [], []))
        ∧ (op.isTerminal = true → s.step own av op = some (s.finish, [], []))
        ∧ (∀ (s' : ClientState) (io : List IoTask) (oc : List OwnerCall),
            op.isDelivery = false → op.isTerminal = false →
            s.step own av op = some (s', io, oc) → s' = s)) := by
  refine ⟨?_, ?_⟩
  · intro own av ops s s' io oc hc h
    exact (ClientState.runTasks_pres own av ops s s' io oc h).2.2 hc
  · intro own av s op hc
    refine ⟨?_, ?_, ?_⟩
    · intro hD
      exact ClientState.inactive_step own av s op hD (ClientState.isActive_of_cancelling s hc)
    · intro hT
      exact ClientState.terminal_step_of_cancelling own av s op hT hc
    · intro s' io oc hD hT h
      exact ClientState.other_step_of_cancelling own av s op hD hT hc s' io oc h

/-- Claim C10 witness: a cancelled client run through a delivery, a
terminal and an owner-facing operation. -/
theorem C10_cancel_irreversible_witness :
    (ClientState.mk true false true none none none []).cancelling = true
    ∧ ({ initialClientState true with cancelling := true } : ClientState).step plainOwner true
        (Op.receiveResponse demoResponse)
      = some (({ initialClientState true with cancelling := true } : ClientState), [], [])
    ∧ ({ initialClientState true with cancelling := true } : ClientState).step plainOwner true
        (Op.fail demoResponse)
      = some (({ initialClientState true with cancelling := true } : ClientState).finish, [], [])
    ∧ (({ initialClientState true with cancelling := true } : ClientState) =
        ({ initialClientState true with cancelling := true } : ClientState)) :=
  ⟨C10_cancel_irreversible.1 plainOwner true [Op.receiveData [1] 1, Op.fail demoResponse]
      ({ initialClientState true with cancelling := true })
      (ClientState.mk true false true none none none []) [] [] rfl (by decide),
   (C10_cancel_irreversible.2 plainOwner true _ (Op.receiveResponse demoResponse) rfl).1 rfl,
   (C10_cancel_irreversible.2 plainOwner true _ (Op.fail demoResponse) rfl).2.1 rfl,
   (C10_cancel_irreversible.2 plainOwner true _ (Op.setAuthOp "u" "p") rfl).2.2 _ _ _ rfl rfl rfl⟩

/-- Claim C4: on an active request, `willSendRequest` forwards the
candidate redirect to the owner and re-checks `isActive` afterwards: if
the owner tore the request down inside the callback it stops (no
follow-redirect, no cancel, only the effects of the owner's own reentrant
calls); if the owner left the URL unmodified it posts a follow-redirect
task to the background worker; and if the owner changed the URL it calls
`cancel` instead. -/
theorem C4_redirect_policy (s : ClientState) (reply : RedirectReply) (r : WebResponse)
    (hA : s.isActive = some true) (s1 : ClientState) (io1 : List IoTask)
    (hR : s.applyReply true reply = (s1, io1)) :
    (s1.isActive = some false →
      s.willSendRequest true reply r = some (s1, io1, [OwnerCall.willSendRequest r.url r]))
    ∧ (s1.isActive = some true → (r.url == reply.newUrl) = true →
      s.willSendRequest true reply r =
        some (s1, io1 ++ [IoTask.followDeferredRedirect], [OwnerCall.willSendRequest r.url r]))
    ∧ (s1.isActive = some true → (r.url == reply.newUrl) = false →
      s.willSendRequest true reply r =
        some ({ s1 with cancelling := true }, io1 ++ [IoTask.cancel],
              [OwnerCall.willSendRequest r.url r])) := by
  refine ⟨?_, ?_, ?_⟩
  · intro hA1
    unfold ClientState.willSendRequest
    rw [hA]
    simp only
    rw [hR]
    simp only
    rw [hA1]
  · intro hA1 hu
    unfold ClientState.willSendRequest
    rw [hA]
    simp only
    rw [hR]
    simp only
    rw [hA1]
    simp only
    rw [hu]
    simp only [if_true]
  · intro hA1 hu
    unfold ClientState.willSendRequest
    rw [hA]
    simp only
    rw [hR]
    simp only
    rw [hA1]
    simp only
    rw [hu]
    simp only [Bool.false_eq_true, if_false]
    rfl

/-- Claim C4 witness: a redirect on a fresh active client, once followed
(URL unmodified), once cancelled (URL rewritten by the owner). -/
theorem C4_redirect_policy_witness :
    (initialClientState true).willSendRequest true
        { newUrl := "http://u/", detachClient := false, callCancel := false } demoResponse
      = some (initialClientState true, [] ++ [IoTask.followDeferredRedirect],
              [OwnerCall.willSendRequest "http://u/" demoResponse])
    ∧ (initialClientState true).willSendRequest true
        { newUrl := "http://elsewhere/", detachClient := false, callCancel := false } demoResponse
      = some ({ initialClientState true with cancelling := true }, [] ++ [IoTask.cancel],
              [OwnerCall.willSendRequest "http://u/" demoResponse]) :=
  ⟨(C4_redirect_policy (initialClientState true)
      { newUrl := "http://u/", detachClient := false, callCancel := false } demoResponse
      rfl (initialClientState true) [] rfl).2.1 rfl (by decide),
   (C4_redirect_policy (initialClientState true)
      { newUrl := "http://elsewhere/", detachClient := false, callCancel := false } demoResponse
      rfl (initialClientState true) [] rfl).2.2 rfl (by decide)⟩

theorem uploadTasksForElement_no_blob (e : FormDataElement)
    (he : e ≠ FormDataElement.encodedBlob) :
    uploadTasksForElement true e = some (specUploadTask e) := by
  cases e with
  | data bytes =>
    unfold uploadTasksForElement specUploadTask
    cases hb : bytes.isEmpty <;> simp [hb]
  | encodedFile filename =>
    unfold uploadTasksForElement specUploadTask
    by_cases hf : filename.length = 0
    · simp [hf]
    · simp [hf, Nat.pos_of_ne_zero hf]
  | encodedBlob => exact absurd rfl he

theorem uploadTasks_no_blob (elements : List FormDataElement)
    (h : ∀ e ∈ elements, e ≠ FormDataElement.encodedBlob) :
    uploadTasks true elements = some (elements.flatMap specUploadTask) := by
  induction elements with
  | nil => rfl
  | cons e es ih =>
    have he : e ≠ FormDataElement.encodedBlob := h e (by simp)
    have hes : ∀ x ∈ es, x ≠ FormDataElement.encodedBlob := fun x hx => h x (by simp [hx])
    unfold uploadTasks
    rw [uploadTasksForElement_no_blob e he, ih hes]
    simp [List.flatMap_cons]

theorem uploadTasks_blob (elements : List FormDataElement)
    (h : FormDataElement.encodedBlob ∈ elements) :
    uploadTasks true elements = none := by
  induction elements with
  | nil => cases h
  | cons e es ih =>
    rcases List.mem_cons.mp h with he | hes
    · rw [← he]
      rfl
    · unfold uploadTasks
      cases hE : uploadTasksForElement true e with
      | none => rfl
      | some ts => rw [ih hes]

/-- Claim C7: for a request with a body and a method that is neither GET
nor HEAD, each zero-length raw-data part and each empty-filename file
part is skipped (no upload task posted for it), each non-empty raw-data
part posts an append-bytes task and each non-empty-filename file part
posts an append-file task, in body order and all before the start task;
a blob body part is a fatal contract violation. -/
theorem C7_upload_body_parts (own : OwnerModel) (isf : String → Int) (cl : Bool)
    (rr : ResourceRequestIn) (elements : List FormDataElement) (fuel : Nat)
    (schedule : List (List Op)) (priv : Bool)
    (hUrl : isAndroidUrl rr.url = false)
    (hMethod : (rr.httpMethod == "GET" || rr.httpMethod == "HEAD") = false)
    (hBody : rr.httpBody = some elements) :
    ((∀ e ∈ elements, e ≠ FormDataElement.encodedBlob) →
      constructAndStart own true isf cl rr fuel schedule false priv =
        some (true,
          { initialClientState cl with request := some (
              { url := rr.url, userAgent := rr.httpUserAgent, inputStream := none } : WebRequest) },
          elements.flatMap specUploadTask ++ [IoTask.start priv], [], []))
    ∧ (FormDataElement.encodedBlob ∈ elements →
        constructClient true isf cl rr = none) := by
  have hCCbase : ∀ (res : Option (List IoTask)), uploadTasks true elements = res →
      constructClient true isf cl rr =
        match res with
        | none => none
        | some tasks =>
            some ({ initialClientState cl with request := some (
              { url := rr.url, userAgent := rr.httpUserAgent, inputStream := none } : WebRequest) }, tasks) := by
    intro res hres
    unfold constructClient
    simp only [WebResourceRequest.ofResourceRequest, hUrl, Bool.false_eq_true, if_false,
      hBody, hMethod, hres]
  constructor
  · intro hnb
    have hCC := hCCbase _ (uploadTasks_no_blob elements hnb)
    unfold constructAndStart
    rw [hCC]
    simp only
    unfold ClientState.start
    simp only [Bool.not_true, Bool.false_eq_true, if_false]
    rfl
  · intro hblob
    have hCC := hCCbase _ (uploadTasks_blob elements hblob)
    exact hCC

/-- Claim C7 witness: a POST body with an empty raw part (skipped), a
non-empty raw part, an empty filename (skipped) and a real file, posted
in order before the start task; and a blob part failing fatally. -/
theorem C7_upload_body_parts_witness :
    constructAndStart plainOwner true (fun _ => 7) true
      { url := "http://x/", httpMethod := "POST", httpHeaderFields := [],
        httpReferrer := "", httpUserAgent := "UA",
        httpBody := some [FormDataElement.data [], FormDataElement.data [1, 2],
          FormDataElement.encodedFile "", FormDataElement.encodedFile "f.txt"] }
      3 [] false false =
      some (true,
        { initialClientState true with request := some (
            { url := "http://x/", userAgent := "UA", inputStream := none } : WebRequest) },
        [FormDataElement.data [], FormDataElement.data [1, 2],
          FormDataElement.encodedFile "", FormDataElement.encodedFile "f.txt"].flatMap
            specUploadTask ++ [IoTask.start false], [], [])
    ∧ constructClient true (fun _ => 7) true
      { url := "http://x/", httpMethod := "POST", httpHeaderFields := [],
        httpReferrer := "", httpUserAgent := "UA",
        httpBody := some [FormDataElement.data [1], FormDataElement.encodedBlob] } = none :=
  ⟨(C7_upload_body_parts plainOwner (fun _ => 7) true _ _ 3 [] false
      (by decide) (by decide) rfl).1 (by decide),
   (C7_upload_body_parts plainOwner (fun _ => 7) true _
      [FormDataElement.data [1], FormDataElement.encodedBlob] 3 [] false
      (by decide) (by decide) rfl).2 (by decide)⟩

/-- Claim C8: for every URL matching one of the fixed special-scheme
prefixes, construction obtains a local data stream from the owner and
binds the executor request to that stream instead of the network, before
any dispatch: no task is posted during construction and every other
field of the constructed bridge state is the standard initial state. -/
theorem C8_android_url_local_stream (ioAvailable : Bool) (isf : String → Int) (cl : Bool)
    (rr : ResourceRequestIn) (h : isAndroidUrl rr.url = true) :
    constructClient ioAvailable isf cl rr =
      some ({ initialClientState cl with request := some (
        { url := rr.url, userAgent := rr.httpUserAgent, inputStream := some (isf rr.url) } : WebRequest) },
        []) := by
  unfold constructClient
  simp only [WebResourceRequest.ofResourceRequest, h, if_true]

/-- Claim C8 witness: construction with the URL `content://foo` posts no
task and binds the request to the owner-supplied stream. -/
theorem C8_android_url_local_stream_witness :
    constructClient true (fun _ => 7) true
      { url := "content://foo", httpMethod := "GET", httpHeaderFields := [],
        httpReferrer := "", httpUserAgent := "UA", httpBody := none } =
      some ({ initialClientState true with request := some (
        { url := "content://foo", userAgent := "UA", inputStream := some 7 } : WebRequest) }, []) :=
  C8_android_url_local_stream true (fun _ => 7) true
    { url := "content://foo", httpMethod := "GET", httpHeaderFields := [],
      httpReferrer := "", httpUserAgent := "UA", httpBody := none } (by decide)
